import Mathlib

/-!
# Verification of the Cloudant output plugin core

A shallow embedding of `helper.go` and `main.go`: the record normaliser
`convertToStringKeyMap`, the batch delivery loop `sendToCloudant`, and the
initialisation path `InitializeConfig` / `ReadCloudantAPIKey` /
`initCloudantClient` / `FLBPluginInit`.

Modelling conventions.

* A Go `string` inside a record is its byte sequence (`GoString`); the
  conversion `string(b)` of a `[]byte` keeps exactly the bytes of `b`.
* A Go `interface{}` value is a `Value`.  The dynamic types that the type
  switch of `convertToStringKeyMap` distinguishes are separate constructors:
  `map[interface{}]interface{}` is `imap`, `[]interface{}` is `slice`,
  `[]byte` is `bytes`; everything that reaches the `default` arm is either a
  scalar or a `map[string]interface{}` (`smap`).
* A Go map is an association list, iterated in list order.  An assignment
  `m[k] = v` is `mapSet`.  Go maps have pairwise distinct keys; that
  invariant is the predicate `wellFormed` and is assumed only where a
  statement needs it.
  Go ranges over a map in an unspecified order; the statements below hold
  for every association list, hence for every order of iteration.
* The slice arm of `convertToStringKeyMap` writes each converted element back
  into the slice it was given and returns that slice; the value returned is
  the list of converted elements, which is what `convertItems` computes.
* `Scalar` stands for every value that reaches the `default` arm and holds no
  nested `interface{}` value.
* A Go panic is an explicit outcome (`Completion.panicked`).
* The Cloudant SDK, the UUID source, the file system, the process
  environment and the `strings` package are outside the repository and
  enter as parameters.
-/

namespace CloudantOutput

/-! ## Data model -/

/-- Go string: a finite byte sequence. -/
abbrev GoString := List UInt8

/-- Scalars: the comparable dynamic values that carry no nested structure.
A `float64` is carried as its bit pattern and never inspected. -/
inductive Scalar where
  | null
  | bool (b : Bool)
  | int (i : Int)
  | float (bits : Nat)
  | str (s : GoString)
  deriving DecidableEq, Repr

/-- Dynamically typed value (`interface{}`), by dynamic type. -/
inductive Value where
  | scalar (s : Scalar)
  | bytes (b : List UInt8)
  | imap (entries : List (Scalar × Value))
  | smap (entries : List (GoString × Value))
  | slice (items : List Value)

/-- Error of `convertToStringKeyMap`: `non-string key found: <key>`. -/
inductive ConvError where
  | nonStringKey (key : Scalar)
  deriving DecidableEq, Repr

/-- Map assignment `m[k] = v` on a string-keyed map: replaces the entry of an
existing key, adds the entry otherwise. -/
def mapSet (m : List (GoString × Value)) (k : GoString) (v : Value) :
    List (GoString × Value) :=
  match m with
  | [] => [(k, v)]
  | (k2, v2) :: tl => if k2 = k then (k, v) :: tl else (k2, v2) :: mapSet tl k v

/-! ## `convertToStringKeyMap` (helper.go) -/

mutual
/-- The type switch of `convertToStringKeyMap`. -/
def convertToStringKeyMap : Value → Except ConvError Value
  | .imap entries =>
    match convertEntries entries [] with
    | .error e => .error e
    | .ok output => .ok (.smap output)
  | .slice items =>
    match convertItems items with
    | .error e => .error e
    | .ok v => .ok (.slice v)
  | .bytes b => .ok (.scalar (.str b))
  | .scalar s => .ok (.scalar s)
  | .smap entries => .ok (.smap entries)
/-- The loop `for key, value := range v` of the map arm; `output` is the map
built so far. -/
def convertEntries : List (Scalar × Value) → List (GoString × Value) →
    Except ConvError (List (GoString × Value))
  | [], output => .ok output
  | (key, value) :: rest, output =>
    match key with
    | .str strKey =>
      match convertToStringKeyMap value with
      | .error e => .error e
      | .ok convertedValue => convertEntries rest (mapSet output strKey convertedValue)
    | .null => .error (.nonStringKey .null)
    | .bool b => .error (.nonStringKey (.bool b))
    | .int i => .error (.nonStringKey (.int i))
    | .float f => .error (.nonStringKey (.float f))
/-- The loop `for i, item := range v` of the slice arm. -/
def convertItems : List Value → Except ConvError (List Value)
  | [] => .ok []
  | item :: rest =>
    match convertToStringKeyMap item with
    | .error e => .error e
    | .ok convertedItem =>
      match convertItems rest with
      | .error e => .error e
      | .ok convertedRest => .ok (convertedItem :: convertedRest)
end

/-! ## Shape predicates on values -/

/-- Key test: the dynamic type of a map key is `string` (`key.(string)`). -/
def Scalar.isStr : Scalar → Bool
  | .str _ => true
  | _ => false

mutual
/-- No byte buffer and no mapping with a non-string key, at any depth. -/
def jsonSafe : Value → Bool
  | .scalar _ => true
  | .bytes _ => false
  | .imap entries => jsonSafeIEntries entries
  | .smap entries => jsonSafeSEntries entries
  | .slice items => jsonSafeItems items
/-- Entries of a `map[interface{}]interface{}`: string keys, safe values. -/
def jsonSafeIEntries : List (Scalar × Value) → Bool
  | [] => true
  | (k, v) :: rest => k.isStr && jsonSafe v && jsonSafeIEntries rest
/-- Entries of a `map[string]interface{}`: safe values. -/
def jsonSafeSEntries : List (GoString × Value) → Bool
  | [] => true
  | (_, v) :: rest => jsonSafe v && jsonSafeSEntries rest
/-- Elements of a slice: all safe. -/
def jsonSafeItems : List Value → Bool
  | [] => true
  | v :: rest => jsonSafe v && jsonSafeItems rest
end

mutual
/-- Every `map[string]interface{}` met on a path from the root through
`map[interface{}]interface{}` values and slice elements is `jsonSafe`. -/
def strMapsSafe : Value → Bool
  | .scalar _ => true
  | .bytes _ => true
  | .imap entries => strMapsSafeIEntries entries
  | .smap entries => jsonSafeSEntries entries
  | .slice items => strMapsSafeItems items
/-- Values of the entries of a `map[interface{}]interface{}`. -/
def strMapsSafeIEntries : List (Scalar × Value) → Bool
  | [] => true
  | (_, v) :: rest => strMapsSafe v && strMapsSafeIEntries rest
/-- Elements of a slice. -/
def strMapsSafeItems : List Value → Bool
  | [] => true
  | v :: rest => strMapsSafe v && strMapsSafeItems rest
end

mutual
/-- Some mapping, at the top level or at any depth inside mappings of either
kind and slices, has a key that is not a string. -/
def hasNonStringKey : Value → Bool
  | .scalar _ => false
  | .bytes _ => false
  | .imap entries => hasNonStringKeyIEntries entries
  | .smap entries => hasNonStringKeySEntries entries
  | .slice items => hasNonStringKeyItems items
/-- Entries of a `map[interface{}]interface{}`. -/
def hasNonStringKeyIEntries : List (Scalar × Value) → Bool
  | [] => false
  | (k, v) :: rest => !k.isStr || hasNonStringKey v || hasNonStringKeyIEntries rest
/-- Entries of a `map[string]interface{}`. -/
def hasNonStringKeySEntries : List (GoString × Value) → Bool
  | [] => false
  | (_, v) :: rest => hasNonStringKey v || hasNonStringKeySEntries rest
/-- Elements of a slice. -/
def hasNonStringKeyItems : List Value → Bool
  | [] => false
  | v :: rest => hasNonStringKey v || hasNonStringKeyItems rest
end

mutual
/-- Some `map[interface{}]interface{}` reached from the root through
`map[interface{}]interface{}` values and slice elements only (never through a
`map[string]interface{}`) has a key that is not a string. -/
def reachesNonStringKey : Value → Bool
  | .scalar _ => false
  | .bytes _ => false
  | .imap entries => reachesNonStringKeyIEntries entries
  | .smap _ => false
  | .slice items => reachesNonStringKeyItems items
/-- Entries of a `map[interface{}]interface{}`. -/
def reachesNonStringKeyIEntries : List (Scalar × Value) → Bool
  | [] => false
  | (k, v) :: rest => !k.isStr || reachesNonStringKey v || reachesNonStringKeyIEntries rest
/-- Elements of a slice. -/
def reachesNonStringKeyItems : List Value → Bool
  | [] => false
  | v :: rest => reachesNonStringKey v || reachesNonStringKeyItems rest
end

mutual
/-- Canonical shape: string-keyed maps (`map[string]interface{}`), slices and
scalars, recursively. -/
def isCanonical : Value → Bool
  | .scalar _ => true
  | .bytes _ => false
  | .imap _ => false
  | .smap entries => isCanonicalSEntries entries
  | .slice items => isCanonicalItems items
/-- Entries of a `map[string]interface{}`. -/
def isCanonicalSEntries : List (GoString × Value) → Bool
  | [] => true
  | (_, v) :: rest => isCanonical v && isCanonicalSEntries rest
/-- Elements of a slice. -/
def isCanonicalItems : List Value → Bool
  | [] => true
  | v :: rest => isCanonical v && isCanonicalItems rest
end

mutual
/-- Go map invariant: in every mapping of the tree the keys are pairwise
distinct. -/
def wellFormed : Value → Bool
  | .scalar _ => true
  | .bytes _ => true
  | .imap entries => decide (entries.map Prod.fst).Nodup && wellFormedIEntries entries
  | .smap entries => decide (entries.map Prod.fst).Nodup && wellFormedSEntries entries
  | .slice items => wellFormedItems items
/-- Values of a `map[interface{}]interface{}`. -/
def wellFormedIEntries : List (Scalar × Value) → Bool
  | [] => true
  | (_, v) :: rest => wellFormed v && wellFormedIEntries rest
/-- Values of a `map[string]interface{}`. -/
def wellFormedSEntries : List (GoString × Value) → Bool
  | [] => true
  | (_, v) :: rest => wellFormed v && wellFormedSEntries rest
/-- Elements of a slice. -/
def wellFormedItems : List Value → Bool
  | [] => true
  | v :: rest => wellFormed v && wellFormedItems rest
end

/-! ## The expected output, written from the specification -/

mutual
/-- Expected output as the specification words it: same shape as the input,
every mapping string-keyed with the same keys, and every byte buffer at any
depth (also below a map that is already string-keyed) replaced by the text
of its bytes. -/
def specDecodeEverywhere : Value → Value
  | .scalar s => .scalar s
  | .bytes b => .scalar (.str b)
  | .imap entries => .smap (specDecodeEverywhereIEntries entries)
  | .smap entries => .smap (specDecodeEverywhereSEntries entries)
  | .slice items => .slice (specDecodeEverywhereItems items)
/-- Entries of a `map[interface{}]interface{}` whose keys are strings. -/
def specDecodeEverywhereIEntries : List (Scalar × Value) → List (GoString × Value)
  | [] => []
  | (.str s, v) :: rest => (s, specDecodeEverywhere v) :: specDecodeEverywhereIEntries rest
  | (.null, _) :: rest => specDecodeEverywhereIEntries rest
  | (.bool _, _) :: rest => specDecodeEverywhereIEntries rest
  | (.int _, _) :: rest => specDecodeEverywhereIEntries rest
  | (.float _, _) :: rest => specDecodeEverywhereIEntries rest
/-- Entries of a `map[string]interface{}`. -/
def specDecodeEverywhereSEntries : List (GoString × Value) → List (GoString × Value)
  | [] => []
  | (s, v) :: rest => (s, specDecodeEverywhere v) :: specDecodeEverywhereSEntries rest
/-- Elements of a slice, in order. -/
def specDecodeEverywhereItems : List Value → List Value
  | [] => []
  | v :: rest => specDecodeEverywhere v :: specDecodeEverywhereItems rest
end

mutual
/-- Expected output with a `map[string]interface{}` left exactly as it is:
byte buffers are replaced by text, and `map[interface{}]interface{}` by
string-keyed maps, only on paths through `map[interface{}]interface{}` values
and slice elements. -/
def specDecodeReachable : Value → Value
  | .scalar s => .scalar s
  | .bytes b => .scalar (.str b)
  | .imap entries => .smap (specDecodeReachableIEntries entries)
  | .smap entries => .smap entries
  | .slice items => .slice (specDecodeReachableItems items)
/-- Entries of a `map[interface{}]interface{}` whose keys are strings. -/
def specDecodeReachableIEntries : List (Scalar × Value) → List (GoString × Value)
  | [] => []
  | (.str s, v) :: rest => (s, specDecodeReachable v) :: specDecodeReachableIEntries rest
  | (.null, _) :: rest => specDecodeReachableIEntries rest
  | (.bool _, _) :: rest => specDecodeReachableIEntries rest
  | (.int _, _) :: rest => specDecodeReachableIEntries rest
  | (.float _, _) :: rest => specDecodeReachableIEntries rest
/-- Elements of a slice, in order. -/
def specDecodeReachableItems : List Value → List Value
  | [] => []
  | v :: rest => specDecodeReachable v :: specDecodeReachableItems rest
end

/-! ## `sendToCloudant` (helper.go) -/

/-- Return code `output.FLB_ERROR` of the Fluent Bit Go interface. -/
def FLB_ERROR : Int := 0

/-- Return code `output.FLB_OK` of the Fluent Bit Go interface. -/
def FLB_OK : Int := 1

/-- How a call ends: it returns a status code, or the goroutine panics. -/
inductive Completion where
  | returned (code : Int)
  | panicked
  deriving DecidableEq, Repr

/-- The part of `cloudantv1.Document` that the plugin touches: the `_id`
pointer and the additional properties written by `SetProperty`. -/
structure Document where
  ID : Option GoString
  properties : List (GoString × Value)

/-- Method `doc.SetProperty(key, value)`: an assignment into the property
map of the document. -/
def Document.SetProperty (doc : Document) (key : GoString) (value : Value) : Document :=
  { doc with properties := mapSet doc.properties key value }

/-- The part of `cloudantv1.DocumentResult` that the plugin reads. -/
structure DocumentResult where
  ID : Option GoString
  Error : Option GoString

/-- What `service.PostDocument` hands back: the result pointer (possibly
nil) and the error (nil on success). -/
structure PostOutcome where
  documentResult : Option DocumentResult
  err : Option String

/-- The store client `*cloudantv1.CloudantV1`, reduced to the one call the
plugin makes.  The answer may depend on the documents submitted earlier in
the same batch. -/
structure CloudantV1 where
  PostDocument : List Document → Document → PostOutcome

/-- What one run of `sendToCloudant` did: the documents handed to
`PostDocument`, in call order, and how the run ended. -/
structure SendRun where
  posted : List Document
  completion : Completion

/-- The inner loop `for key, value := range convertedMap` over a fresh
document. -/
def setProperties (doc : Document) : List (GoString × Value) → Document
  | [] => doc
  | (key, value) :: rest => setProperties (doc.SetProperty key value) rest

/-- The checked type assertion `record.(map[string]interface{})`: the map and
`ok`; on failure the map is nil, which ranges over nothing. -/
def assertStringMap : Value → List (GoString × Value) × Bool
  | .smap entries => (entries, true)
  | _ => ([], false)

/-- The loop of `sendToCloudant` over the remaining records; `posted` holds
the documents submitted so far, and `ids n` is the value of the `n`-th call of
`generateUniqueID`. -/
def sendLoop (service : CloudantV1) (ids : Nat → GoString) :
    List Value → List Document → SendRun
  | [], posted => { posted := posted, completion := .returned FLB_OK }
  | record :: rest, posted =>
    -- `convertedMap, ok := record.(map[string]interface{})`; when `ok` is
    -- false the source only prints a message and goes on
    let convertedMap := (assertStringMap record).1
    let doc := setProperties { ID := some (ids posted.length), properties := [] } convertedMap
    let outcome := service.PostDocument posted doc
    match outcome.err with
    | some _ =>
      -- the error message reads `documentResult.Error` before returning
      match outcome.documentResult with
      | none => { posted := posted ++ [doc], completion := .panicked }
      | some _ => { posted := posted ++ [doc], completion := .returned FLB_ERROR }
    | none => sendLoop service ids rest (posted ++ [doc])

/-- Function `sendToCloudant(service, records)`. -/
def sendToCloudant (service : CloudantV1) (ids : Nat → GoString) (records : List Value) :
    SendRun :=
  sendLoop service ids records []

/-! ## Initialisation (helper.go, main.go) -/

/-- The package-level variables of `main.go`. -/
structure Globals where
  endpoint : String
  apiKey : String
  authMode : String
  tokenPath : String
  cloudantDatabase : String
  cloudantService : Option CloudantV1

/-- What the plugin reaches outside itself during initialisation:
`os.ReadFile` (content as text), `os.Getenv`, `strings.ToUpper`,
`strings.TrimSpace` and `cloudantv1.NewCloudantV1` (by URL and API key). -/
structure Host where
  readFile : String → Except String String
  getenv : String → String
  toUpper : String → String
  trimSpace : String → String
  newCloudantV1 : String → String → Except String CloudantV1

/-- Function `InitializeConfig(plugin)`; `plugin key` is
`output.FLBPluginConfigKey(plugin, key)`, the empty string for a key that is
not configured.  The globals are assigned before they are validated. -/
def InitializeConfig (plugin : String → String) (g : Globals) : Globals × Option String :=
  let g1 : Globals :=
    { g with
      endpoint := plugin "Endpoint"
      authMode := plugin "Authentication_Mode"
      tokenPath := plugin "CR_Token_Mount_Path"
      cloudantDatabase := plugin "Database" }
  if g1.endpoint = "" then
    (g1, some "missing mandatory config: Endpoint")
  else if g1.authMode = "" then
    (g1, some "missing mandatory config: Authentication_Mode")
  else if g1.authMode ≠ "IAMAPIKEY" then
    (g1, some "invalid Authentication_Mode: Must be IAMAPIKEY")
  else if g1.tokenPath = "" then
    (g1, some "missing mandatory config: CR_Token_Mount_Path")
  else if g1.cloudantDatabase = "" then
    (g1, some "missing mandatory config: Database name")
  else
    (g1, none)

/-- Function `ReadCloudantAPIKey()`. -/
def ReadCloudantAPIKey (host : Host) (g : Globals) : Globals × Option String :=
  if host.toUpper g.authMode = "IAMAPIKEY" then
    match host.readFile g.tokenPath with
    | .error e =>
      (g, some ("[http_output] ERROR: Failed to read IAMAPIKEY from: " ++ g.tokenPath ++
        ", error: " ++ e))
    | .ok apiKeyBytes => ({ g with apiKey := host.trimSpace apiKeyBytes }, none)
  else if host.toUpper g.authMode = "ENV" then
    let g1 : Globals := { g with apiKey := host.getenv "API_KEY" }
    if g1.apiKey = "" then
      (g1, some "[http_output] ERROR: API_KEY environment variable not set")
    else
      (g1, none)
  else
    (g, none)

/-- The URL closure of `initCloudantClient`: the scheme `https://` is put in
front of an endpoint that does not start with it. -/
def serviceURL (endpoint : String) : String :=
  if "https://".toList.isPrefixOf endpoint.toList then endpoint else "https://" ++ endpoint

/-- Function `initCloudantClient()`: `none` stands for the `panic(err)` of the
source; a normal return carries the client and the (always nil) error. -/
def initCloudantClient (host : Host) (g : Globals) : Option (CloudantV1 × Option String) :=
  match host.newCloudantV1 (serviceURL g.endpoint) g.apiKey with
  | .error _ => none
  | .ok cloudantService => some (cloudantService, none)

/-- What one run of `FLBPluginInit` did: the globals it left and how it
ended. -/
structure InitRun where
  globals : Globals
  completion : Completion

/-- Function `FLBPluginInit(plugin)`. -/
def FLBPluginInit (host : Host) (plugin : String → String) (g : Globals) : InitRun :=
  match InitializeConfig plugin g with
  | (g1, some _) => { globals := g1, completion := .returned FLB_ERROR }
  | (g1, none) =>
    match ReadCloudantAPIKey host g1 with
    | (g2, some _) => { globals := g2, completion := .returned FLB_ERROR }
    | (g2, none) =>
      match initCloudantClient host g2 with
      | none => { globals := g2, completion := .panicked }
      | some (service, some _) =>
        { globals := { g2 with cloudantService := some service },
          completion := .returned FLB_ERROR }
      | some (service, none) =>
        { globals := { g2 with cloudantService := some service },
          completion := .returned FLB_OK }

/-! ## Expected submissions -/

/-- The documents a batch of string-keyed records is expected to produce when
`n` identities have been drawn before: one per record, in order, each with
the next identity and exactly the fields of its record. -/
def expectedDocs (ids : Nat → GoString) (n : Nat) :
    List (List (GoString × Value)) → List Document
  | [] => []
  | fields :: rest => { ID := some (ids n), properties := fields } :: expectedDocs ids (n + 1) rest

/-! ## Concrete data used in the evaluations below -/

/-- The text `msg`. -/
def kMsg : GoString := [109, 115, 103]

/-- The text `a`. -/
def tA : GoString := [97]

/-- The text `b`. -/
def tB : GoString := [98]

/-- Identity source used in the evaluations: the `n`-th identity is the
one-byte string `n`. -/
def idsDemo (n : Nat) : GoString := [UInt8.ofNat n]

/-- Store that accepts every document. -/
def storeAcceptAll : CloudantV1 :=
  { PostDocument := fun _ _ => { documentResult := some { ID := none, Error := none }, err := none } }

/-- Store whose every call fails without a result object, as a transport
failure does. -/
def storeFailNoResult : CloudantV1 :=
  { PostDocument := fun _ _ => { documentResult := none, err := some "connection refused" } }

/-- Store that accepts the first document of a batch and fails on the second
without a result object. -/
def storeFailSecondNoResult : CloudantV1 :=
  { PostDocument := fun posted _ =>
      match posted with
      | [] => { documentResult := some { ID := none, Error := none }, err := none }
      | _ :: _ => { documentResult := none, err := some "connection refused" } }

/-- Host used in the evaluations: one readable token file, `API_KEY` set,
identity case mapping and trimming (the texts involved are upper-case and
carry no blanks), and a client constructor that accepts every input. -/
def hostDemo : Host :=
  { readFile := fun path => if path = "/token" then .ok "key" else .error "no such file"
    getenv := fun name => if name = "API_KEY" then "key" else ""
    toUpper := fun s => s
    trimSpace := fun s => s
    newCloudantV1 := fun _ _ => .ok storeAcceptAll }

/-- Host whose client constructor fails; otherwise as `hostDemo`. -/
def hostClientFails : Host :=
  { hostDemo with newCloudantV1 := fun _ _ => .error "service URL is invalid" }

/-- Globals before initialisation: the zero values. -/
def globalsZero : Globals :=
  { endpoint := "", apiKey := "", authMode := "", tokenPath := "", cloudantDatabase := "",
    cloudantService := none }

/-- Configuration with every key set, in mode `IAMAPIKEY`. -/
def cfgIam (key : String) : String :=
  if key = "Endpoint" then "db.example" else
  if key = "Authentication_Mode" then "IAMAPIKEY" else
  if key = "CR_Token_Mount_Path" then "/token" else
  if key = "Database" then "logs" else ""

/-- Configuration in mode `ENV`, with endpoint and database set. -/
def cfgEnv (key : String) : String :=
  if key = "Endpoint" then "db.example" else
  if key = "Authentication_Mode" then "ENV" else
  if key = "Database" then "logs" else ""

/-- Configuration without `Authentication_Mode`, with endpoint and database
set. -/
def cfgNoMode (key : String) : String :=
  if key = "Endpoint" then "db.example" else
  if key = "Database" then "logs" else ""

/-! ## Lemmas on map assignment -/

theorem jsonSafeSEntries_mapSet (m : List (GoString × Value)) (k : GoString) (v : Value) :
    jsonSafeSEntries m = true → jsonSafe v = true → jsonSafeSEntries (mapSet m k v) = true := by
  induction m with
  | nil => intro _ hv; simp [mapSet, jsonSafeSEntries, hv]
  | cons hd tl ih =>
    obtain ⟨k2, v2⟩ := hd
    intro hm hv
    simp only [jsonSafeSEntries, Bool.and_eq_true] at hm
    unfold mapSet
    split
    · simp [jsonSafeSEntries, hv, hm.2]
    · simp [jsonSafeSEntries, hm.1, ih hm.2 hv]

theorem mapSet_fresh (m : List (GoString × Value)) (k : GoString) (v : Value)
    (hk : k ∉ m.map Prod.fst) : mapSet m k v = m ++ [(k, v)] := by
  induction m with
  | nil => rfl
  | cons hd tl ih =>
    obtain ⟨k2, v2⟩ := hd
    simp only [List.map_cons, List.mem_cons, not_or] at hk
    unfold mapSet
    rw [if_neg (fun h => hk.1 h.symm), ih hk.2]
    rfl

/-! ## Normalisation: the output invariant -/

mutual
theorem convert_jsonSafe : ∀ (v r : Value), convertToStringKeyMap v = .ok r →
    strMapsSafe v = true → jsonSafe r = true
  | .scalar s, r, h, _ => by simp [convertToStringKeyMap] at h; subst h; rfl
  | .bytes b, r, h, _ => by simp [convertToStringKeyMap] at h; subst h; rfl
  | .smap es, r, h, hs => by
    simp [convertToStringKeyMap] at h; subst h; simpa [strMapsSafe, jsonSafe] using hs
  | .imap es, r, h, hs => by
    simp only [convertToStringKeyMap] at h
    split at h
    · cases h
    · rename_i out hout
      cases h
      simp only [jsonSafe]
      exact convertEntries_jsonSafe es [] out hout (by simpa [strMapsSafe] using hs) rfl
  | .slice xs, r, h, hs => by
    simp only [convertToStringKeyMap] at h
    split at h
    · cases h
    · rename_i out hout
      cases h
      simp only [jsonSafe]
      exact convertItems_jsonSafe xs out hout (by simpa [strMapsSafe] using hs)
theorem convertEntries_jsonSafe : ∀ (es : List (Scalar × Value))
    (acc out : List (GoString × Value)),
    convertEntries es acc = .ok out → strMapsSafeIEntries es = true →
    jsonSafeSEntries acc = true → jsonSafeSEntries out = true
  | [], acc, out, h, _, hacc => by simp [convertEntries] at h; subst h; exact hacc
  | (.str s, v) :: tl, acc, out, h, hs, hacc => by
    simp only [strMapsSafeIEntries, Bool.and_eq_true] at hs
    simp only [convertEntries] at h
    split at h
    · cases h
    · rename_i cv hcv
      exact convertEntries_jsonSafe tl _ out h hs.2
        (jsonSafeSEntries_mapSet acc s cv hacc (convert_jsonSafe v cv hcv hs.1))
  | (.null, _) :: _, _, _, h, _, _ => by simp [convertEntries] at h
  | (.bool _, _) :: _, _, _, h, _, _ => by simp [convertEntries] at h
  | (.int _, _) :: _, _, _, h, _, _ => by simp [convertEntries] at h
  | (.float _, _) :: _, _, _, h, _, _ => by simp [convertEntries] at h
theorem convertItems_jsonSafe : ∀ (xs out : List Value),
    convertItems xs = .ok out → strMapsSafeItems xs = true → jsonSafeItems out = true
  | [], out, h, _ => by simp [convertItems] at h; subst h; rfl
  | x :: tl, out, h, hs => by
    simp only [strMapsSafeItems, Bool.and_eq_true] at hs
    simp only [convertItems] at h
    split at h
    · cases h
    · rename_i cx hcx
      split at h
      · cases h
      · rename_i ctl hctl
        cases h
        simp only [jsonSafeItems, Bool.and_eq_true]
        exact ⟨convert_jsonSafe x cx hcx hs.1, convertItems_jsonSafe tl ctl hctl hs.2⟩
end

/-! ## Normalisation: rejection of non-string keys -/

mutual
theorem convert_error_of_reaches : ∀ (v : Value), reachesNonStringKey v = true →
    ∃ e, convertToStringKeyMap v = .error e
  | .scalar _, h => by simp [reachesNonStringKey] at h
  | .bytes _, h => by simp [reachesNonStringKey] at h
  | .smap _, h => by simp [reachesNonStringKey] at h
  | .imap es, h => by
    obtain ⟨e, he⟩ := convertEntries_error_of_reaches es [] (by simpa [reachesNonStringKey] using h)
    exact ⟨e, by simp [convertToStringKeyMap, he]⟩
  | .slice xs, h => by
    obtain ⟨e, he⟩ := convertItems_error_of_reaches xs (by simpa [reachesNonStringKey] using h)
    exact ⟨e, by simp [convertToStringKeyMap, he]⟩
theorem convertEntries_error_of_reaches : ∀ (es : List (Scalar × Value))
    (acc : List (GoString × Value)), reachesNonStringKeyIEntries es = true →
    ∃ e, convertEntries es acc = .error e
  | [], _, h => by simp [reachesNonStringKeyIEntries] at h
  | (.null, _) :: _, _, _ => ⟨_, by simp only [convertEntries]; rfl⟩
  | (.bool _, _) :: _, _, _ => ⟨_, by simp only [convertEntries]; rfl⟩
  | (.int _, _) :: _, _, _ => ⟨_, by simp only [convertEntries]; rfl⟩
  | (.float _, _) :: _, _, _ => ⟨_, by simp only [convertEntries]; rfl⟩
  | (.str s, v) :: tl, acc, h => by
    simp only [convertEntries]
    cases hv : convertToStringKeyMap v with
    | error e => exact ⟨e, rfl⟩
    | ok cv =>
      have hv2 : reachesNonStringKey v = false := by
        cases hr : reachesNonStringKey v with
        | false => rfl
        | true =>
          obtain ⟨e, he⟩ := convert_error_of_reaches v hr
          rw [hv] at he; cases he
      have ht : reachesNonStringKeyIEntries tl = true := by
        simpa [reachesNonStringKeyIEntries, Scalar.isStr, hv2] using h
      exact convertEntries_error_of_reaches tl _ ht
theorem convertItems_error_of_reaches : ∀ (xs : List Value),
    reachesNonStringKeyItems xs = true → ∃ e, convertItems xs = .error e
  | [], h => by simp [reachesNonStringKeyItems] at h
  | x :: tl, h => by
    simp only [convertItems]
    cases hv : convertToStringKeyMap x with
    | error e => exact ⟨e, rfl⟩
    | ok cv =>
      have hv2 : reachesNonStringKey x = false := by
        cases hr : reachesNonStringKey x with
        | false => rfl
        | true =>
          obtain ⟨e, he⟩ := convert_error_of_reaches x hr
          rw [hv] at he; cases he
      have ht : reachesNonStringKeyItems tl = true := by
        simpa [reachesNonStringKeyItems, hv2] using h
      obtain ⟨e, he⟩ := convertItems_error_of_reaches tl ht
      exact ⟨e, by simp [he]⟩
end

/-! ## Normalisation: canonical input and idempotence -/

mutual
theorem convert_canonical : ∀ (v : Value), isCanonical v = true →
    convertToStringKeyMap v = .ok v
  | .scalar _, _ => rfl
  | .bytes _, h => by simp [isCanonical] at h
  | .imap _, h => by simp [isCanonical] at h
  | .smap _, _ => rfl
  | .slice xs, h => by
    have hx := convertItems_canonical xs (by simpa [isCanonical] using h)
    simp [convertToStringKeyMap, hx]
theorem convertItems_canonical : ∀ (xs : List Value), isCanonicalItems xs = true →
    convertItems xs = .ok xs
  | [], _ => rfl
  | x :: tl, h => by
    simp only [isCanonicalItems, Bool.and_eq_true] at h
    simp [convertItems, convert_canonical x h.1, convertItems_canonical tl h.2]
end

mutual
theorem convert_idem : ∀ (v r : Value), convertToStringKeyMap v = .ok r →
    convertToStringKeyMap r = .ok r
  | .scalar _, r, h => by simp [convertToStringKeyMap] at h; subst h; rfl
  | .bytes _, r, h => by simp [convertToStringKeyMap] at h; subst h; rfl
  | .smap _, r, h => by simp [convertToStringKeyMap] at h; subst h; rfl
  | .imap es, r, h => by
    simp only [convertToStringKeyMap] at h
    split at h
    · cases h
    · cases h; rfl
  | .slice xs, r, h => by
    simp only [convertToStringKeyMap] at h
    split at h
    · cases h
    · rename_i out hout
      cases h
      simp [convertToStringKeyMap, convertItems_idem xs out hout]
theorem convertItems_idem : ∀ (xs out : List Value), convertItems xs = .ok out →
    convertItems out = .ok out
  | [], out, h => by simp [convertItems] at h; subst h; rfl
  | x :: tl, out, h => by
    simp only [convertItems] at h
    split at h
    · cases h
    · rename_i cx hcx
      split at h
      · cases h
      · rename_i ctl hctl
        cases h
        simp [convertItems, convert_idem x cx hcx, convertItems_idem tl ctl hctl]
end

/-! ## Normalisation: the output is the expected tree -/

mutual
theorem convert_eq_spec : ∀ (v : Value), reachesNonStringKey v = false →
    wellFormed v = true → convertToStringKeyMap v = .ok (specDecodeReachable v)
  | .scalar _, _, _ => rfl
  | .bytes _, _, _ => rfl
  | .smap _, _, _ => rfl
  | .imap es, hr, hw => by
    simp only [wellFormed, Bool.and_eq_true, decide_eq_true_eq] at hw
    have he := convertEntries_eq_spec es [] (by simpa [reachesNonStringKey] using hr)
      hw.2 hw.1 (by simp)
    simp [convertToStringKeyMap, he, specDecodeReachable]
  | .slice xs, hr, hw => by
    have hx := convertItems_eq_spec xs (by simpa [reachesNonStringKey] using hr)
      (by simpa [wellFormed] using hw)
    simp [convertToStringKeyMap, hx, specDecodeReachable]
theorem convertEntries_eq_spec : ∀ (es : List (Scalar × Value))
    (acc : List (GoString × Value)), reachesNonStringKeyIEntries es = false →
    wellFormedIEntries es = true → (es.map Prod.fst).Nodup →
    (∀ s, Scalar.str s ∈ es.map Prod.fst → s ∉ acc.map Prod.fst) →
    convertEntries es acc = .ok (acc ++ specDecodeReachableIEntries es)
  | [], acc, _, _, _, _ => by simp [convertEntries, specDecodeReachableIEntries]
  | (.null, _) :: _, _, hr, _, _, _ => by simp [reachesNonStringKeyIEntries, Scalar.isStr] at hr
  | (.bool _, _) :: _, _, hr, _, _, _ => by simp [reachesNonStringKeyIEntries, Scalar.isStr] at hr
  | (.int _, _) :: _, _, hr, _, _, _ => by simp [reachesNonStringKeyIEntries, Scalar.isStr] at hr
  | (.float _, _) :: _, _, hr, _, _, _ => by simp [reachesNonStringKeyIEntries, Scalar.isStr] at hr
  | (.str s, v) :: tl, acc, hr, hw, hn, hacc => by
    simp only [reachesNonStringKeyIEntries, Bool.or_eq_false_iff] at hr
    simp only [wellFormedIEntries, Bool.and_eq_true] at hw
    simp only [List.map_cons, List.nodup_cons] at hn
    have hs : s ∉ acc.map Prod.fst := hacc s (by simp)
    have hv := convert_eq_spec v hr.1.2 hw.1
    have ht := convertEntries_eq_spec tl (acc ++ [(s, specDecodeReachable v)]) hr.2 hw.2 hn.2
      (by
        intro s2 hs2
        have h1 : s2 ∉ acc.map Prod.fst := hacc s2 (by simp [hs2])
        have h2 : s2 ≠ s := by
          rintro rfl
          exact hn.1 hs2
        simp only [List.map_append, List.map_cons, List.map_nil, List.mem_append,
          List.mem_singleton, not_or]
        exact ⟨h1, h2⟩)
    simp only [convertEntries, hv, mapSet_fresh acc s _ hs, ht, specDecodeReachableIEntries,
      List.append_assoc, List.singleton_append]
theorem convertItems_eq_spec : ∀ (xs : List Value), reachesNonStringKeyItems xs = false →
    wellFormedItems xs = true → convertItems xs = .ok (specDecodeReachableItems xs)
  | [], _, _ => rfl
  | x :: tl, hr, hw => by
    simp only [reachesNonStringKeyItems, Bool.or_eq_false_iff] at hr
    simp only [wellFormedItems, Bool.and_eq_true] at hw
    simp [convertItems, convert_eq_spec x hr.1 hw.1, convertItems_eq_spec tl hr.2 hw.2,
      specDecodeReachableItems]
end

/-! ## Delivery -/

theorem setProperties_fresh : ∀ (es : List (GoString × Value)) (doc : Document),
    (es.map Prod.fst).Nodup → (∀ k ∈ es.map Prod.fst, k ∉ doc.properties.map Prod.fst) →
    setProperties doc es = { doc with properties := doc.properties ++ es }
  | [], doc, _, _ => by simp [setProperties]
  | (k, v) :: tl, doc, hn, hd => by
    simp only [List.map_cons, List.nodup_cons] at hn
    have hk : k ∉ doc.properties.map Prod.fst := hd k (by simp)
    have ih := setProperties_fresh tl (doc.SetProperty k v) hn.2 (by
      intro k2 hk2
      have h1 : k2 ∉ doc.properties.map Prod.fst := hd k2 (by simp [hk2])
      have h2 : k2 ≠ k := by
        rintro rfl
        exact hn.1 hk2
      simp only [Document.SetProperty, mapSet_fresh _ k v hk, List.map_append, List.map_cons,
        List.map_nil, List.mem_append, List.mem_singleton, not_or]
      exact ⟨h1, h2⟩)
    have hset : doc.SetProperty k v = { doc with properties := doc.properties ++ [(k, v)] } := by
      simp only [Document.SetProperty, mapSet_fresh _ k v hk]
    rw [hset] at ih
    simp only [setProperties, hset, ih, List.append_assoc, List.singleton_append]

theorem expectedDocs_length (ids : Nat → GoString) :
    ∀ (recs : List (List (GoString × Value))) (n : Nat), (expectedDocs ids n recs).length = recs.length
  | [], _ => rfl
  | _ :: tl, n => by simp [expectedDocs, expectedDocs_length ids tl (n + 1)]

theorem expectedDocs_properties (ids : Nat → GoString) :
    ∀ (recs : List (List (GoString × Value))) (n : Nat),
    (expectedDocs ids n recs).map Document.properties = recs
  | [], _ => rfl
  | _ :: tl, n => by simp [expectedDocs, expectedDocs_properties ids tl (n + 1)]

theorem expectedDocs_ID (ids : Nat → GoString) :
    ∀ (recs : List (List (GoString × Value))) (n i : Nat) (h : i < (expectedDocs ids n recs).length),
    ((expectedDocs ids n recs).get ⟨i, h⟩).ID = some (ids (n + i))
  | [], _, _, h => by simp [expectedDocs] at h
  | _ :: tl, n, 0, _ => by simp [expectedDocs]
  | _ :: tl, n, i + 1, h => by
    simp only [expectedDocs, List.length_cons, Nat.add_lt_add_iff_right] at h
    have := expectedDocs_ID ids tl (n + 1) i h
    simp only [List.get_eq_getElem] at this
    simp only [expectedDocs, List.get_eq_getElem, List.getElem_cons_succ, this]
    congr 2
    omega

/-- One turn of the loop on a string-keyed record whose keys are distinct:
the document submitted carries the next identity and exactly the fields of
the record. -/
theorem sendLoop_step (service : CloudantV1) (ids : Nat → GoString)
    (fields : List (GoString × Value)) (rest : List Value) (posted : List Document)
    (hn : (fields.map Prod.fst).Nodup) :
    sendLoop service ids (.smap fields :: rest) posted =
      match (service.PostDocument posted { ID := some (ids posted.length), properties := fields }).err with
      | some _ =>
        match (service.PostDocument posted
            { ID := some (ids posted.length), properties := fields }).documentResult with
        | none =>
          { posted := posted ++ [{ ID := some (ids posted.length), properties := fields }],
            completion := .panicked }
        | some _ =>
          { posted := posted ++ [{ ID := some (ids posted.length), properties := fields }],
            completion := .returned FLB_ERROR }
      | none =>
        sendLoop service ids rest
          (posted ++ [{ ID := some (ids posted.length), properties := fields }]) := by
  have hdoc : setProperties { ID := some (ids posted.length), properties := [] } fields =
      { ID := some (ids posted.length), properties := fields } := by
    rw [setProperties_fresh fields _ hn (by simp)]
    simp
  simp only [sendLoop, assertStringMap, hdoc]

/-- While the store accepts, the loop submits the expected documents and
moves on to the remaining records. -/
theorem sendLoop_accepted (service : CloudantV1) (ids : Nat → GoString) (rest : List Value) :
    ∀ (recs : List (List (GoString × Value))) (posted : List Document),
    (∀ fields ∈ recs, (fields.map Prod.fst).Nodup) →
    (∀ (before after : List (List (GoString × Value))) (fields : List (GoString × Value)),
      recs = before ++ fields :: after →
      (service.PostDocument (posted ++ expectedDocs ids posted.length before)
        { ID := some (ids (posted.length + before.length)), properties := fields }).err = none) →
    sendLoop service ids (recs.map Value.smap ++ rest) posted =
      sendLoop service ids rest (posted ++ expectedDocs ids posted.length recs)
  | [], posted, _, _ => by simp [expectedDocs]
  | fields :: tl, posted, hn, hacc => by
    have h0 := hacc [] tl fields rfl
    simp only [expectedDocs, List.append_nil, List.length_nil, Nat.add_zero] at h0
    have ih := sendLoop_accepted service ids rest tl
      (posted ++ [{ ID := some (ids posted.length), properties := fields }])
      (fun f hf => hn f (List.mem_cons_of_mem _ hf))
      (by
        intro before after f hrec
        have := hacc (fields :: before) after f (by simp [hrec])
        simpa [expectedDocs, Nat.add_assoc, Nat.add_comm 1] using this)
    simp only [List.map_cons, List.cons_append]
    rw [sendLoop_step service ids fields _ posted (hn fields (List.mem_cons_self _ _)), h0]
    simp only [ih]
    simp [expectedDocs]

/-- Fail-fast delivery, in general: when the store accepts the records before
`fields` and fails on `fields`, exactly the documents up to and including that
of `fields` are submitted, none of the later records is, and the run ends
with `FLB_ERROR` when the failing outcome carries a result object and with a
panic when it carries none. -/
theorem sendToCloudant_fail_fast (service : CloudantV1) (ids : Nat → GoString)
    (before after : List (List (GoString × Value))) (fields : List (GoString × Value))
    (hn : ∀ f ∈ before ++ [fields], (f.map Prod.fst).Nodup)
    (hacc : ∀ (b a : List (List (GoString × Value))) (f : List (GoString × Value)),
      before = b ++ f :: a →
      (service.PostDocument (expectedDocs ids 0 b)
        { ID := some (ids b.length), properties := f }).err = none)
    (hfail : (service.PostDocument (expectedDocs ids 0 before)
        { ID := some (ids before.length), properties := fields }).err ≠ none) :
    (sendToCloudant service ids ((before ++ fields :: after).map Value.smap)).posted =
        expectedDocs ids 0 before ++ [{ ID := some (ids before.length), properties := fields }] ∧
    (sendToCloudant service ids ((before ++ fields :: after).map Value.smap)).completion =
      match (service.PostDocument (expectedDocs ids 0 before)
          { ID := some (ids before.length), properties := fields }).documentResult with
      | none => .panicked
      | some _ => .returned FLB_ERROR := by
  have h1 := sendLoop_accepted service ids ((fields :: after).map Value.smap) before []
    (fun f hf => hn f (List.mem_append_left _ hf))
    (by
      intro b a f hb
      simpa using hacc b a f hb)
  have h2 := sendLoop_step service ids fields (after.map Value.smap)
    (expectedDocs ids 0 before) (hn fields (by simp))
  simp only [expectedDocs_length] at h2
  simp only [List.nil_append, List.length_nil, List.map_cons] at h1
  simp only [sendToCloudant, List.map_append, List.map_cons, h1, h2]
  cases herr : (service.PostDocument (expectedDocs ids 0 before)
      { ID := some (ids before.length), properties := fields }).err with
  | none => exact absurd herr hfail
  | some e =>
    cases hres : (service.PostDocument (expectedDocs ids 0 before)
      { ID := some (ids before.length), properties := fields }).documentResult with
    | none => exact ⟨rfl, rfl⟩
    | some d => exact ⟨rfl, rfl⟩

/-! ## The claims -/

/-- C1 (malformed-record skip), evaluated on the code: in the batch
`[{msg: a}, 42, {msg: b}]` against a store that accepts everything, the record
`42` is not a mapping, yet `sendToCloudant` makes three submissions, the second
one a document with an identity and no field, and returns `FLB_OK`. -/
theorem C1_non_mapping_record_is_submitted :
    (sendToCloudant storeAcceptAll idsDemo
        [.smap [(kMsg, .scalar (.str tA))], .scalar (.int 42),
          .smap [(kMsg, .scalar (.str tB))]]).posted =
      [{ ID := some [0], properties := [(kMsg, .scalar (.str tA))] },
        { ID := some [1], properties := [] },
        { ID := some [2], properties := [(kMsg, .scalar (.str tB))] }] ∧
    (sendToCloudant storeAcceptAll idsDemo
        [.smap [(kMsg, .scalar (.str tA))], .scalar (.int 42),
          .smap [(kMsg, .scalar (.str tB))]]).completion = .returned FLB_OK :=
  ⟨rfl, rfl⟩

/-- C2 (fail-fast batch semantics), evaluated on the code: in a batch of three
mapping records whose second submission fails without a result object,
`sendToCloudant` submits exactly the first two records in order and then
panics; it does not return `FLB_ERROR`. -/
theorem C2_failing_submission_without_result_panics :
    (sendToCloudant storeFailSecondNoResult idsDemo
        [.smap [(kMsg, .scalar (.str tA))], .smap [(kMsg, .scalar (.str tB))],
          .smap [(kMsg, .scalar (.str tA))]]).posted =
      [{ ID := some [0], properties := [(kMsg, .scalar (.str tA))] },
        { ID := some [1], properties := [(kMsg, .scalar (.str tB))] }] ∧
    (sendToCloudant storeFailSecondNoResult idsDemo
        [.smap [(kMsg, .scalar (.str tA))], .smap [(kMsg, .scalar (.str tB))],
          .smap [(kMsg, .scalar (.str tA))]]).completion = .panicked ∧
    (sendToCloudant storeFailSecondNoResult idsDemo
        [.smap [(kMsg, .scalar (.str tA))], .smap [(kMsg, .scalar (.str tB))],
          .smap [(kMsg, .scalar (.str tA))]]).completion ≠ .returned FLB_ERROR :=
  ⟨rfl, rfl, by decide⟩

/-- C3 (all-success batch): for every batch of string-keyed records and every
store that accepts every submission, `sendToCloudant` submits one document per
record, in the order received, the `i`-th with the `i`-th identity and exactly
the fields of the `i`-th record, and returns `FLB_OK`. -/
theorem C3_all_success_batch (service : CloudantV1) (ids : Nat → GoString)
    (recs : List (List (GoString × Value)))
    (hkeys : ∀ fields ∈ recs, (fields.map Prod.fst).Nodup)
    (haccept : ∀ posted doc, (service.PostDocument posted doc).err = none) :
    (sendToCloudant service ids (recs.map Value.smap)).completion = .returned FLB_OK ∧
    (sendToCloudant service ids (recs.map Value.smap)).posted.length = recs.length ∧
    (sendToCloudant service ids (recs.map Value.smap)).posted.map Document.properties = recs ∧
    (sendToCloudant service ids (recs.map Value.smap)).posted = expectedDocs ids 0 recs := by
  have h := sendLoop_accepted service ids [] recs [] hkeys (fun _ _ _ _ => haccept _ _)
  simp only [List.append_nil, List.nil_append, List.length_nil] at h
  simp only [sendToCloudant, h, sendLoop, expectedDocs_length, expectedDocs_properties,
    and_self]

/-- Witness for C3: the batch `[{msg: a}, {msg: b}]` against a store that
accepts both. -/
theorem C3_all_success_batch_witness :
    (sendToCloudant storeAcceptAll idsDemo
        ([[(kMsg, .scalar (.str tA))], [(kMsg, .scalar (.str tB))]].map Value.smap)).completion =
      .returned FLB_OK ∧
    (sendToCloudant storeAcceptAll idsDemo
        ([[(kMsg, .scalar (.str tA))], [(kMsg, .scalar (.str tB))]].map Value.smap)).posted.length =
      2 ∧
    (sendToCloudant storeAcceptAll idsDemo
        ([[(kMsg, .scalar (.str tA))], [(kMsg, .scalar (.str tB))]].map
          Value.smap)).posted.map Document.properties =
      [[(kMsg, .scalar (.str tA))], [(kMsg, .scalar (.str tB))]] ∧
    (sendToCloudant storeAcceptAll idsDemo
        ([[(kMsg, .scalar (.str tA))], [(kMsg, .scalar (.str tB))]].map Value.smap)).posted =
      expectedDocs idsDemo 0 [[(kMsg, .scalar (.str tA))], [(kMsg, .scalar (.str tB))]] :=
  C3_all_success_batch storeAcceptAll idsDemo
    [[(kMsg, .scalar (.str tA))], [(kMsg, .scalar (.str tB))]]
    (by
      intro fields hf
      simp only [List.mem_cons, List.mem_singleton, List.not_mem_nil, or_false] at hf
      rcases hf with rfl | rfl <;> simp)
    (fun _ _ => rfl)

/-- C4 as stated fails: a string-keyed map holding a byte buffer is returned
as it is, so the successful result still contains a byte buffer. -/
theorem C4_counterexample :
    convertToStringKeyMap (.smap [(kMsg, .bytes tA)]) = .ok (.smap [(kMsg, .bytes tA)]) ∧
    jsonSafe (.smap [(kMsg, .bytes tA)]) = false :=
  ⟨rfl, rfl⟩

/-- C4 (normalised-output invariant), amended: when every
`map[string]interface{}` that the input holds on a path through
`map[interface{}]interface{}` values and slice elements is itself free of byte
buffers and non-string keys, a successful result contains no byte buffer and
no mapping with a non-string key at any depth. -/
theorem C4_output_invariant (v r : Value) (hok : convertToStringKeyMap v = .ok r)
    (hmaps : strMapsSafe v = true) : jsonSafe r = true :=
  convert_jsonSafe v r hok hmaps

/-- Witness for C4: a record with a nested map, a slice and byte buffers. -/
theorem C4_output_invariant_witness :
    jsonSafe (.smap [(kMsg, .scalar (.str tA)),
      (tB, .slice [.smap [(tA, .scalar (.str tB))], .scalar (.int 7)])]) = true :=
  C4_output_invariant
    (.imap [(.str kMsg, .bytes tA),
      (.str tB, .slice [.imap [(.str tA, .bytes tB)], .scalar (.int 7)])])
    _ rfl rfl

/-- C5 as stated fails: a mapping with the non-string key `1` that sits below
a string-keyed map is not inspected, and the conversion succeeds. -/
theorem C5_counterexample :
    hasNonStringKey (.smap [(kMsg, .imap [(.int 1, .scalar .null)])]) = true ∧
    convertToStringKeyMap (.smap [(kMsg, .imap [(.int 1, .scalar .null)])]) =
      .ok (.smap [(kMsg, .imap [(.int 1, .scalar .null)])]) :=
  ⟨rfl, rfl⟩

/-- C5 (key rejection), amended: when some `map[interface{}]interface{}`, at
the top level or at any depth reached through `map[interface{}]interface{}`
values and slice elements, has a key that is not a string,
`convertToStringKeyMap` returns an error and no value. -/
theorem C5_key_rejection (v : Value) (hkey : reachesNonStringKey v = true) :
    ∃ e, convertToStringKeyMap v = .error e :=
  convert_error_of_reaches v hkey

/-- Witness for C5: the key `1` two levels down, inside a slice. -/
theorem C5_key_rejection_witness :
    ∃ e, convertToStringKeyMap
      (.imap [(.str kMsg, .slice [.bytes tA, .imap [(.int 1, .scalar .null)]])]) = .error e :=
  C5_key_rejection _ rfl

/-- C6 (idempotent on canonical input): a value in canonical shape is returned
unchanged, and normalising a successful result again returns that result. -/
theorem C6_idempotent (v raw r : Value) :
    (isCanonical v = true → convertToStringKeyMap v = .ok v) ∧
    (convertToStringKeyMap raw = .ok r → convertToStringKeyMap r = .ok r) :=
  ⟨convert_canonical v, convert_idem raw r⟩

/-- Witness for C6: a canonical record, and a raw record with its result. -/
theorem C6_idempotent_witness :
    convertToStringKeyMap (.smap [(kMsg, .slice [.scalar (.str tA), .smap []])]) =
      .ok (.smap [(kMsg, .slice [.scalar (.str tA), .smap []])]) ∧
    convertToStringKeyMap (.smap [(kMsg, .scalar (.str tA))]) =
      .ok (.smap [(kMsg, .scalar (.str tA))]) :=
  ⟨(C6_idempotent (.smap [(kMsg, .slice [.scalar (.str tA), .smap []])])
      (.scalar .null) (.scalar .null)).1 rfl,
    (C6_idempotent (.scalar .null) (.imap [(.str kMsg, .bytes tA)])
      (.smap [(kMsg, .scalar (.str tA))])).2 rfl⟩

/-- C7 as stated fails: a byte buffer below a string-keyed map stays a byte
buffer, where the expected output holds its text. -/
theorem C7_counterexample :
    hasNonStringKey (.slice [.smap [(kMsg, .bytes tB)]]) = false ∧
    wellFormed (.slice [.smap [(kMsg, .bytes tB)]]) = true ∧
    convertToStringKeyMap (.slice [.smap [(kMsg, .bytes tB)]]) =
      .ok (.slice [.smap [(kMsg, .bytes tB)]]) ∧
    specDecodeEverywhere (.slice [.smap [(kMsg, .bytes tB)]]) =
      .slice [.smap [(kMsg, .scalar (.str tB))]] ∧
    convertToStringKeyMap (.slice [.smap [(kMsg, .bytes tB)]]) ≠
      .ok (specDecodeEverywhere (.slice [.smap [(kMsg, .bytes tB)]])) :=
  ⟨rfl, rfl, rfl, rfl, by
    simp [convertToStringKeyMap, convertItems, specDecodeEverywhere, specDecodeEverywhereItems,
      specDecodeEverywhereSEntries]⟩

/-- C7 (recursive integrity), amended: for a record whose
`map[interface{}]interface{}` mappings, reached through such mappings and
slice elements, all have string keys, `convertToStringKeyMap` succeeds and
returns the input with each such mapping string-keyed under the same keys,
each slice of the same length and order, each scalar the same, each byte
buffer on such a path replaced by the text of exactly its bytes, and each
`map[string]interface{}` left as it is. -/
theorem C7_recursive_integrity (v : Value) (hkeys : reachesNonStringKey v = false)
    (hwf : wellFormed v = true) :
    convertToStringKeyMap v = .ok (specDecodeReachable v) :=
  convert_eq_spec v hkeys hwf

/-- Witness for C7: byte buffers at depth one, two and three. -/
theorem C7_recursive_integrity_witness :
    convertToStringKeyMap
      (.imap [(.str kMsg, .bytes tA),
        (.str tB, .slice [.bytes tB, .imap [(.str tA, .bytes tA)], .scalar (.bool true)])]) =
    .ok (.smap [(kMsg, .scalar (.str tA)),
        (tB, .slice [.scalar (.str tB), .smap [(tA, .scalar (.str tA))],
          .scalar (.bool true)])]) :=
  C7_recursive_integrity
    (.imap [(.str kMsg, .bytes tA),
      (.str tB, .slice [.bytes tB, .imap [(.str tA, .bytes tA)], .scalar (.bool true)])])
    rfl (by decide)

/-- Validation, characterised: `InitializeConfig` returns no error exactly
when `Endpoint`, `CR_Token_Mount_Path` and `Database` are non-empty and
`Authentication_Mode` is the text `IAMAPIKEY`. -/
theorem InitializeConfig_accepts_iff (plugin : String → String) (g : Globals) :
    (InitializeConfig plugin g).2 = none ↔
      plugin "Endpoint" ≠ "" ∧ plugin "Authentication_Mode" = "IAMAPIKEY" ∧
        plugin "CR_Token_Mount_Path" ≠ "" ∧ plugin "Database" ≠ "" := by
  by_cases hendpoint : plugin "Endpoint" = ""
  · simp [InitializeConfig, hendpoint]
  · by_cases hmode : plugin "Authentication_Mode" = "IAMAPIKEY"
    · by_cases hpath : plugin "CR_Token_Mount_Path" = ""
      · simp [InitializeConfig, hendpoint, hmode, hpath]
      · by_cases hdatabase : plugin "Database" = ""
        · simp [InitializeConfig, hendpoint, hmode, hpath, hdatabase]
        · simp [InitializeConfig, hendpoint, hmode, hpath, hdatabase]
    · by_cases hempty : plugin "Authentication_Mode" = ""
      · simp [InitializeConfig, hendpoint, hmode, hempty]
      · simp [InitializeConfig, hendpoint, hmode, hempty]

/-- C8 (acceptance of authentication modes), evaluated on the code: with
endpoint and database set, the mode `ENV` (with `API_KEY` set in the
environment) and an absent mode are both rejected by `InitializeConfig`, so
`FLBPluginInit` returns `FLB_ERROR`; yet `ReadCloudantAPIKey`, run on the very
globals that validation left, resolves the credential in both modes (the
`ENV` arm reads `API_KEY`, the `default` arm proceeds without a credential). -/
theorem C8_env_and_absent_mode_rejected :
    hostDemo.getenv "API_KEY" = "key" ∧
    (InitializeConfig cfgEnv globalsZero).2 =
      some "invalid Authentication_Mode: Must be IAMAPIKEY" ∧
    (InitializeConfig cfgNoMode globalsZero).2 =
      some "missing mandatory config: Authentication_Mode" ∧
    (FLBPluginInit hostDemo cfgEnv globalsZero).completion = .returned FLB_ERROR ∧
    (FLBPluginInit hostDemo cfgNoMode globalsZero).completion = .returned FLB_ERROR ∧
    (ReadCloudantAPIKey hostDemo (InitializeConfig cfgEnv globalsZero).1).2 = none ∧
    (ReadCloudantAPIKey hostDemo (InitializeConfig cfgEnv globalsZero).1).1.apiKey = "key" ∧
    (ReadCloudantAPIKey hostDemo (InitializeConfig cfgNoMode globalsZero).1).2 = none := by
  decide

/-- C9 (store failure is reported, not fatal), evaluated on the code: for the
batch `[{msg: a}]` and a store whose submission fails without a result object,
`sendToCloudant` submits the document and then panics, reading the `Error`
field of the missing result; it does not return `FLB_ERROR`. -/
theorem C9_store_failure_without_result_panics :
    (storeFailNoResult.PostDocument []
        { ID := some [0], properties := [(kMsg, .scalar (.str tA))] }).err =
      some "connection refused" ∧
    (sendToCloudant storeFailNoResult idsDemo
        [.smap [(kMsg, .scalar (.str tA))]]).posted =
      [{ ID := some [0], properties := [(kMsg, .scalar (.str tA))] }] ∧
    (sendToCloudant storeFailNoResult idsDemo
        [.smap [(kMsg, .scalar (.str tA))]]).completion = .panicked ∧
    (sendToCloudant storeFailNoResult idsDemo
        [.smap [(kMsg, .scalar (.str tA))]]).completion ≠ .returned FLB_ERROR :=
  ⟨rfl, rfl, rfl, by decide⟩

/-- C10 (client-construction failure is reported, not crashed), evaluated on
the code: with a configuration that passes validation and a readable token
file, a failing client constructor makes `initCloudantClient` panic, so
`FLBPluginInit` panics and does not return `FLB_ERROR`. -/
theorem C10_client_construction_failure_panics :
    (InitializeConfig cfgIam globalsZero).2 = none ∧
    (ReadCloudantAPIKey hostClientFails (InitializeConfig cfgIam globalsZero).1).2 = none ∧
    hostClientFails.newCloudantV1 (serviceURL "db.example") "key" =
      .error "service URL is invalid" ∧
    initCloudantClient hostClientFails
        (ReadCloudantAPIKey hostClientFails (InitializeConfig cfgIam globalsZero).1).1 = none ∧
    (FLBPluginInit hostClientFails cfgIam globalsZero).completion = .panicked ∧
    (FLBPluginInit hostClientFails cfgIam globalsZero).completion ≠ .returned FLB_ERROR :=
  ⟨by decide, by decide, rfl, rfl, by decide, by decide⟩

end CloudantOutput
